import Mathlib

/-!
# Verification of the emark resource store

A shallow embedding of the resource-access core of the emark repository
(`src/store/container.rs`, `src/store/query.rs`, `src/store/res.rs`,
`src/utils/lock/grained_lock.rs`) together with proofs of the spec's claims
about it.

Modelling conventions:
* Rust type identities (`TypeId`) are modelled as natural numbers.  The type
  identity of the store's internal map type
  `HashMap<TypeId, GrainedLock<Box<dyn Any>>>` is the distinguished constant
  `mapTypeId`; every other natural number stands for the type identity of an
  ordinary resource type.
* `Box<dyn Any>` is modelled by `BoxedAny`: either a leaf box carrying the
  type identity of its payload and the payload value (payloads are modelled
  as naturals), or the structural box holding the store's map itself.
* The `HashMap` is modelled as an association list; `insert` overwrites,
  `remove` deletes, `lookup`/`contains_key` search by key.
* Locking is erased: the embedding gives the sequential semantics of each
  operation (what value each call observes/returns).  The lock-acquisition
  *order* of the tuple retrieval protocol is modelled explicitly by
  `acqList`, the sequence of `(type id, access)` pairs in the order in which
  `Retriever::retrieve` calls `Container::get` (and hence acquires the
  per-resource locks).
* A Rust `panic!`/`unwrap` failure is an `Except.error`.
-/

namespace Emark

/-- Access mode requested from the store (`enum Access` in `src/store/query.rs`). -/
inductive Access where
  | immutable
  | mutable
  deriving DecidableEq, Repr

/-- The type identity of the store's internal map type
`HashMap<TypeId, GrainedLock<Box<dyn Any>>>`.  Type identities are modelled
as naturals and `0` is reserved for this internal type. -/
def mapTypeId : Nat := 0

/-- A type-erased `Box<dyn Any>`: a leaf box tags a payload value with the
type identity of the payload's type (`Box::new(resource)` under
`TypeId::of::<T>()`), and `boxedMap` is the structural box that holds the
store's own `HashMap` (the payload of the outer `GrainedLock`). -/
inductive BoxedAny where
  | boxed (tid : Nat) (v : Nat)
  | boxedMap (entries : List (Nat × BoxedAny))

/-- Models `Box<dyn Any>::downcast::<T>` / `downcast_ref::<T>` for a leaf resource
type with identity `tid`: succeeds exactly when the box's dynamic type is
`tid`.  The structural map box never downcasts to a leaf resource type. -/
def downcast (tid : Nat) : BoxedAny → Option Nat
  | .boxed t v => if t = tid then some v else none
  | .boxedMap _ => none

/-- The dynamic type identity of a box (`(*box).type_id()`); the structural
box's dynamic type is the internal map type. -/
def BoxedAny.dynTid : BoxedAny → Nat
  | .boxed t _ => t
  | .boxedMap _ => mapTypeId

/-- The resource store (`struct Container` in `src/store/container.rs`):
one structural lock around a map from type identity to a per-resource lock
around a type-erased box.  Locks are erased; the association list is the
map's contents. -/
structure Container where
  resources : List (Nat × BoxedAny)

/-- Models `Container::default()`: the empty store. -/
def Container.default : Container := ⟨[]⟩

/-- Models `HashMap::insert` semantics on the association-list model: the new
binding replaces any binding of the same key. -/
def mapInsert (m : List (Nat × BoxedAny)) (k : Nat) (v : BoxedAny) :
    List (Nat × BoxedAny) :=
  (k, v) :: m.filter (fun p => p.1 != k)

/-- Models `Container::add_resource_any`: wraps the box in a fresh per-resource lock
and inserts/overwrites the map entry. -/
def Container.add_resource_any (c : Container) (tid : Nat) (b : BoxedAny) :
    Container :=
  ⟨mapInsert c.resources tid b⟩

/-- Models `Container::add_resource::<T>`: boxes the value under `T`'s own type
identity and inserts it. -/
def Container.add_resource (c : Container) (tid v : Nat) : Container :=
  c.add_resource_any tid (.boxed tid v)

/-- Models `Container::remove_resource_any`: removes the entry if present and
consumes its per-resource lock (`GrainedLock::take`) to extract the boxed
payload; returns the box (if any) and the updated store. -/
def Container.remove_resource_any (c : Container) (tid : Nat) :
    Option BoxedAny × Container :=
  match c.resources.lookup tid with
  | some b => (some b, ⟨c.resources.filter (fun p => p.1 != tid)⟩)
  | none => (none, c)

/-- Models `Container::remove_resource::<T>`: typed removal,
`.map(|b| *b.downcast::<T>().unwrap())`.  The `unwrap` panic on a failed
downcast is the `Except.error` case. -/
def Container.remove_resource (c : Container) (tid : Nat) :
    Except String (Option Nat) × Container :=
  match c.remove_resource_any tid with
  | (some b, c2) =>
    (match downcast tid b with
     | some v => (.ok (some v), c2)
     | none => (.error "downcast failed", c2))
  | (none, c2) => (.ok none, c2)

/-- Models `Container::contains_resource_any`: `contains_key` on the map. -/
def Container.contains_resource_any (c : Container) (tid : Nat) : Bool :=
  (c.resources.lookup tid).isSome

/-- The result of `RetreivalContainer::get` (`enum Retrieved` in
`src/store/query.rs`): a shared or exclusive view of a `Box<dyn Any>`, or a
not-found marker. -/
inductive Retrieved where
  | immutable (b : BoxedAny)
  | mutable (b : BoxedAny)
  | notFound

/-- Models `Retrieved::is_found`. -/
def Retrieved.is_found : Retrieved → Bool
  | .immutable _ => true
  | .mutable _ => true
  | .notFound => false

/-- Models `Retrieved::is_immutable`. -/
def Retrieved.is_immutable : Retrieved → Bool
  | .immutable _ => true
  | _ => false

/-- Models `Retrieved::is_mutable`. -/
def Retrieved.is_mutable : Retrieved → Bool
  | .mutable _ => true
  | _ => false

/-- Models `RetreivalContainer::get for Container` (`src/store/container.rs`): if
the requested type identity is that of the internal map type, return a view
of the structural box itself (always found, even on an empty store);
otherwise look the per-resource lock up under the structural lock and
descend into it with the requested access mode. -/
def Container.get (c : Container) (tid : Nat) (access : Access) : Retrieved :=
  if tid = mapTypeId then
    match access with
    | .immutable => .immutable (.boxedMap c.resources)
    | .mutable => .mutable (.boxedMap c.resources)
  else
    if c.contains_resource_any tid then
      match c.resources.lookup tid with
      | some b =>
        match access with
        | .immutable => .immutable b
        | .mutable => .mutable b
      | none => .notFound
    else
      .notFound

/-- Models `Retriever for Res<T>` (`src/store/res.rs`): shared required view; a
not-found result is the `panic!("Resource not found")`. -/
def resRetrieve (c : Container) (tid : Nat) : Except String BoxedAny :=
  match c.get tid .immutable with
  | .immutable v => .ok v
  | .mutable _ => .error "unreachable"
  | .notFound => .error "Resource not found"

/-- Models `Retriever for ResMut<T>`: exclusive required view. -/
def resMutRetrieve (c : Container) (tid : Nat) : Except String BoxedAny :=
  match c.get tid .mutable with
  | .immutable _ => .error "unreachable"
  | .mutable v => .ok v
  | .notFound => .error "Resource not found"

/-- Models `Retriever for ResClone<T>`: clones the value out of a shared view;
the `downcast_ref::<T>().unwrap()` panic is the "downcast failed" error. -/
def resCloneRetrieve (c : Container) (tid : Nat) : Except String Nat :=
  match c.get tid .immutable with
  | .immutable v =>
    (match downcast tid v with
     | some x => .ok x
     | none => .error "downcast failed")
  | .mutable _ => .error "unreachable"
  | .notFound => .error "Resource not found"

/-- Models `Retriever for Option<Res<T>>`: tolerant shared view, absent on any
non-shared result. -/
def optResRetrieve (c : Container) (tid : Nat) : Option BoxedAny :=
  match c.get tid .immutable with
  | .immutable v => some v
  | _ => none

/-- Models `Retriever for Option<ResMut<T>>`: tolerant exclusive view. -/
def optResMutRetrieve (c : Container) (tid : Nat) : Option BoxedAny :=
  match c.get tid .mutable with
  | .mutable v => some v
  | _ => none

/-- Models `Retriever for Option<ResClone<T>>`: tolerant snapshot-clone view; on a
found shared view it still performs an `unwrap`ped downcast before cloning. -/
def optResCloneRetrieve (c : Container) (tid : Nat) :
    Except String (Option Nat) :=
  match c.get tid .immutable with
  | .immutable v =>
    (match downcast tid v with
     | some x => .ok (some x)
     | none => .error "downcast failed")
  | _ => .ok none

/-- Models `Deref`/`DerefMut for Res<T>/ResMut<T>`: `downcast_ref::<T>().unwrap()`
on the box the handle points at. -/
def resDeref (tid : Nat) (b : BoxedAny) : Except String Nat :=
  match downcast tid b with
  | some v => .ok v
  | none => .error "downcast failed"

/-- Writing through a `ResMut<T>` handle (`*res = v`): replaces the payload
of `T`'s box in place; the box keeps `T`'s dynamic type. -/
def Container.writeThrough (c : Container) (tid v : Nat) : Container :=
  ⟨c.resources.map (fun p => if p.1 = tid then (p.1, BoxedAny.boxed tid v) else p)⟩

/-- One element of a declared tuple request: exactly the `Retrievable`
implementations in `src/store/res.rs` (`Res`, `ResMut`, `ResClone`,
`Option<Res>`, `Option<ResMut>`), each carrying the type identity of the
requested resource type. -/
inductive ReqElem where
  | res (tid : Nat)
  | resMut (tid : Nat)
  | resClone (tid : Nat)
  | optRes (tid : Nat)
  | optResMut (tid : Nat)
  deriving DecidableEq, Repr

/-- Models `Retrievable::type_id()` of an element. -/
def ReqElem.tid : ReqElem → Nat
  | .res t => t
  | .resMut t => t
  | .resClone t => t
  | .optRes t => t
  | .optResMut t => t

/-- Models `Access::from(<T as Retrievable>::Access::default())` of an element. -/
def ReqElem.access : ReqElem → Access
  | .res _ => .immutable
  | .resMut _ => .mutable
  | .resClone _ => .immutable
  | .optRes _ => .immutable
  | .optResMut _ => .mutable

/-- The typed view produced for one tuple element (the `Item` of the
corresponding `Retrievable` implementation). -/
inductive ElemView where
  | res (b : BoxedAny)
  | resMut (b : BoxedAny)
  | resClone (v : Nat)
  | optRes (b : Option BoxedAny)
  | optResMut (b : Option BoxedAny)

/-- Models `Retrievable::from_retrieved` for each element kind
(`src/store/res.rs`): required views panic (`unreachable!()`) on anything
but their own access mode, the clone view additionally `unwrap`s a
downcast, optional views map any other result to absent. -/
def fromRetrieved : ReqElem → Retrieved → Except String ElemView
  | .res _, .immutable b => .ok (.res b)
  | .res _, _ => .error "unreachable"
  | .resMut _, .mutable b => .ok (.resMut b)
  | .resMut _, _ => .error "unreachable"
  | .resClone t, .immutable b =>
    (match downcast t b with
     | some v => .ok (.resClone v)
     | none => .error "downcast failed")
  | .resClone _, _ => .error "unreachable"
  | .optRes _, .immutable b => .ok (.optRes (some b))
  | .optRes _, _ => .ok (.optRes none)
  | .optResMut _, .mutable b => .ok (.optResMut (some b))
  | .optResMut _, _ => .ok (.optResMut none)

/-- Step 1 of `Retriever::retrieve` for tuples (`impl_retrievable` in
`src/store/query.rs`): the array of (type identity, access mode, original
position) triples in declared order. -/
def reqTriples (req : List ReqElem) : List (Nat × Access × Nat) :=
  req.enum.map (fun p => (p.2.tid, p.2.access, p.1))

/-- The comparison `sort_by(|a, b| a.0.cmp(&b.0))`: order triples by type
identity. -/
def tidLe (a b : Nat × Access × Nat) : Prop := a.1 ≤ b.1

instance : DecidableRel tidLe :=
  fun a b => inferInstanceAs (Decidable (a.1 ≤ b.1))

instance : IsTotal (Nat × Access × Nat) tidLe :=
  ⟨fun a b => Nat.le_total a.1 b.1⟩

instance : IsTrans (Nat × Access × Nat) tidLe :=
  ⟨fun _ _ _ => Nat.le_trans⟩

/-- Step 2: the request triples sorted by type identity. -/
def sortedTriples (req : List ReqElem) : List (Nat × Access × Nat) :=
  (reqTriples req).insertionSort tidLe

/-- The order in which the tuple retrieval calls `Container::get` — and
hence acquires the per-resource locks: the (type identity, access) pairs of
the sorted triples. -/
def acqList (req : List ReqElem) : List (Nat × Access) :=
  (sortedTriples req).map (fun q => (q.1, q.2.1))

/-- Step 3: call `get` for each sorted triple, keeping the original
position. -/
def cellsOf (c : Container) (req : List ReqElem) :
    List (Nat × Retrieved × Nat) :=
  (sortedTriples req).map (fun q => (q.1, c.get q.1 q.2.1, q.2.2))

/-- The comparison `sort_by(|a, b| a.2.cmp(&b.2))`: order cells by original
position. -/
def idxLe (a b : Nat × Retrieved × Nat) : Prop := a.2.2 ≤ b.2.2

instance : DecidableRel idxLe :=
  fun a b => inferInstanceAs (Decidable (a.2.2 ≤ b.2.2))

instance : IsTotal (Nat × Retrieved × Nat) idxLe :=
  ⟨fun a b => Nat.le_total a.2.2 b.2.2⟩

instance : IsTrans (Nat × Retrieved × Nat) idxLe :=
  ⟨fun _ _ _ => Nat.le_trans⟩

/-- Step 4: the cells re-sorted back to original position order. -/
def backCells (c : Container) (req : List ReqElem) :
    List (Nat × Retrieved × Nat) :=
  (cellsOf c req).insertionSort idxLe

/-- Building the result tuple: `from_retrieved` applied position by
position, left to right; the first panic aborts the whole retrieval. -/
def collectViews : List (ReqElem × Retrieved) → Except String (List ElemView)
  | [] => .ok []
  | (e, r) :: rest =>
    match fromRetrieved e r with
    | .ok v =>
      (match collectViews rest with
       | .ok vs => .ok (v :: vs)
       | .error s => .error s)
    | .error s => .error s

/-- Models `Retriever::retrieve` for a tuple request (`impl_retrievable`): sort by
type identity, fetch in sorted order, re-sort by original position, convert
each cell with its element's `from_retrieved`. -/
def tupleRetrieve (c : Container) (req : List ReqElem) :
    Except String (List ElemView) :=
  collectViews (req.zip ((backCells c req).map (fun q => q.2.1)))

/-- The naive per-element retrieval: fetch each element directly in declared
order. -/
def naiveRetrieve (c : Container) (req : List ReqElem) :
    Except String (List ElemView) :=
  collectViews (req.map (fun e => (e, c.get e.tid e.access)))

/-! ## Association-list helper lemmas -/

theorem lookup_cons_self (k : Nat) (v : BoxedAny) (m : List (Nat × BoxedAny)) :
    ((k, v) :: m).lookup k = some v := by
  simp [List.lookup]

theorem lookup_cons_ne (k a : Nat) (h : a ≠ k) (v : BoxedAny)
    (m : List (Nat × BoxedAny)) : ((k, v) :: m).lookup a = m.lookup a := by
  have hb : (a == k) = false := beq_eq_false_iff_ne.mpr h
  simp [List.lookup, hb]

theorem lookup_filter_self (m : List (Nat × BoxedAny)) (k : Nat) :
    (m.filter (fun p => p.1 != k)).lookup k = none := by
  induction m with
  | nil => rfl
  | cons p m ih =>
    by_cases h : p.1 = k
    · simpa [List.filter_cons, h] using ih
    · have hb : (p.1 != k) = true := by simpa [bne] using h
      have hk : k ≠ p.1 := fun hkk => h hkk.symm
      simpa [List.filter_cons, hb, lookup_cons_ne p.1 k hk] using ih

theorem lookup_mapInsert_self (m : List (Nat × BoxedAny)) (k : Nat)
    (v : BoxedAny) : (mapInsert m k v).lookup k = some v :=
  lookup_cons_self k v _

theorem lookup_mem {m : List (Nat × BoxedAny)} {k : Nat} {b : BoxedAny}
    (h : m.lookup k = some b) : (k, b) ∈ m := by
  induction m with
  | nil => exact absurd h (by simp [List.lookup])
  | cons p m ih =>
    rcases p with ⟨a, c⟩
    by_cases hk : k = a
    · subst hk
      rw [lookup_cons_self] at h
      exact (Option.some_inj.mp h) ▸ List.mem_cons_self _ _
    · rw [lookup_cons_ne a k hk] at h
      exact List.mem_cons_of_mem _ (ih h)

/-! ## Claim theorems: store lifecycle -/

/-- Claim C8: `remove_resource::<T>()` after an insert of `v` returns exactly
`some v` (the typed payload extracted by consuming the per-resource lock)
and afterwards the store no longer contains `T`; `remove_resource` on a
store that never held `T` returns `none` and leaves the store unchanged. -/
theorem remove_resource_roundtrip (c c2 : Container) (t v : Nat)
    (h2 : c2.contains_resource_any t = false) :
    ((c.add_resource t v).remove_resource t).1 = .ok (some v)
    ∧ (((c.add_resource t v).remove_resource t).2).contains_resource_any t
        = false
    ∧ c2.remove_resource_any t = (none, c2)
    ∧ (c2.remove_resource t).1 = .ok none ∧ (c2.remove_resource t).2 = c2 := by
  have hl : ((c.add_resource t v).resources).lookup t
      = some (BoxedAny.boxed t v) := lookup_mapInsert_self _ _ _
  have hnone : c2.resources.lookup t = none := by
    cases hx : c2.resources.lookup t with
    | none => rfl
    | some b => simp [Container.contains_resource_any, hx] at h2
  refine ⟨?_, ?_, ?_, ?_, ?_⟩
  · simp [Container.remove_resource, Container.remove_resource_any, hl,
      downcast]
  · simp [Container.remove_resource, Container.remove_resource_any, hl,
      downcast, Container.contains_resource_any, lookup_filter_self]
  · simp [Container.remove_resource_any, hnone]
  · simp [Container.remove_resource, Container.remove_resource_any, hnone]
  · simp [Container.remove_resource, Container.remove_resource_any, hnone]

/-- Witness for `remove_resource_roundtrip` at a concrete store. -/
theorem remove_resource_roundtrip_witness :
    ((Container.default.add_resource 5 7).remove_resource 5).1 = .ok (some 7)
    ∧ (((Container.default.add_resource 5 7).remove_resource 5).2).contains_resource_any 5
        = false
    ∧ Container.default.remove_resource_any 5 = (none, Container.default)
    ∧ (Container.default.remove_resource 5).1 = .ok none
    ∧ (Container.default.remove_resource 5).2 = Container.default :=
  remove_resource_roundtrip Container.default Container.default 5 7 rfl

/-- Claim C9 (amended): Inserting a resource of type `T` over an existing one
overwrites without error: the store afterwards holds exactly one entry for
`T`, namely the newly inserted value, and — for every resource type other
than the store's internal map type — every subsequent retrieval of `T`
observes the newly inserted value. -/
theorem insert_overwrites (c : Container) (t v₁ v₂ : Nat)
    (h : t ≠ mapTypeId) :
    (((c.add_resource t v₁).add_resource t v₂).resources.countP
        (fun p => p.1 == t)) = 1
    ∧ ((c.add_resource t v₁).add_resource t v₂).resources.lookup t
        = some (.boxed t v₂)
    ∧ resRetrieve ((c.add_resource t v₁).add_resource t v₂) t
        = .ok (.boxed t v₂)
    ∧ resMutRetrieve ((c.add_resource t v₁).add_resource t v₂) t
        = .ok (.boxed t v₂)
    ∧ resCloneRetrieve ((c.add_resource t v₁).add_resource t v₂) t = .ok v₂ := by
  have hl : (((c.add_resource t v₁).add_resource t v₂).resources).lookup t
      = some (BoxedAny.boxed t v₂) := lookup_mapInsert_self _ _ _
  refine ⟨?_, hl, ?_, ?_, ?_⟩
  · have hz : ((mapInsert c.resources t (BoxedAny.boxed t v₁)).filter
        (fun p => p.1 != t)).countP (fun p => p.1 == t) = 0 := by
      refine List.countP_eq_zero.mpr ?_
      intro p hp
      have := (List.mem_filter.mp hp).2
      simpa [bne] using this
    simp [Container.add_resource, Container.add_resource_any, mapInsert,
      List.countP_cons, hz]
  · simp [resRetrieve, Container.get, h, Container.contains_resource_any, hl]
  · simp [resMutRetrieve, Container.get, h, Container.contains_resource_any,
      hl]
  · simp [resCloneRetrieve, Container.get, h, Container.contains_resource_any,
      hl, downcast]

/-- Witness for `insert_overwrites` at a concrete store. -/
theorem insert_overwrites_witness :
    (((Container.default.add_resource 5 1).add_resource 5 2).resources.countP
        (fun p => p.1 == 5)) = 1
    ∧ ((Container.default.add_resource 5 1).add_resource 5 2).resources.lookup 5
        = some (.boxed 5 2)
    ∧ resRetrieve ((Container.default.add_resource 5 1).add_resource 5 2) 5
        = .ok (.boxed 5 2)
    ∧ resMutRetrieve ((Container.default.add_resource 5 1).add_resource 5 2) 5
        = .ok (.boxed 5 2)
    ∧ resCloneRetrieve ((Container.default.add_resource 5 1).add_resource 5 2) 5
        = .ok 2 :=
  insert_overwrites Container.default 5 1 2 (by decide)

/-- Claim C9 counterexample: For `T` the store's internal map type the claim
fails: after overwriting, the map holds exactly the newly inserted value
under `T`, yet retrieving `T` observes the structural map view, not the
newly inserted value. -/
theorem insert_overwrites_map_tid_cex :
    ((Container.default.add_resource mapTypeId 1).add_resource mapTypeId 2).resources.lookup mapTypeId
      = some (.boxed mapTypeId 2)
    ∧ resRetrieve ((Container.default.add_resource mapTypeId 1).add_resource mapTypeId 2) mapTypeId
      ≠ .ok (.boxed mapTypeId 2) := by
  refine ⟨rfl, ?_⟩
  intro h
  have h2 : resRetrieve ((Container.default.add_resource mapTypeId 1).add_resource mapTypeId 2) mapTypeId
      = Except.ok (BoxedAny.boxedMap [(mapTypeId, BoxedAny.boxed mapTypeId 2)]) := rfl
  rw [h2] at h
  injection h with h3
  exact BoxedAny.noConfusion h3

/-- Claim C10: `get` with the type identity of the store's internal map type
always succeeds on every store — returning the whole internal map as the
found resource, with the requested access mode — while `contains_resource`
for that same type identity on a store that never held it (the empty store)
returns `false`: get-found and contains disagree for this type identity. -/
theorem get_map_type_always_found (c : Container) (a : Access) :
    (c.get mapTypeId a).is_found = true
    ∧ c.get mapTypeId .immutable = .immutable (.boxedMap c.resources)
    ∧ c.get mapTypeId .mutable = .mutable (.boxedMap c.resources)
    ∧ (c.get mapTypeId a).is_immutable = (a == .immutable)
    ∧ (c.get mapTypeId a).is_mutable = (a == .mutable)
    ∧ Container.default.contains_resource_any mapTypeId = false := by
  cases a <;> exact ⟨rfl, rfl, rfl, rfl, rfl, rfl⟩

/-- Claim C7: Writes through an exclusive view persist: after inserting value
`1` for a (non-internal) type, exclusively retrieving it, mutating it to
`2` and dropping the handle, a shared retrieval observes `2`; a
snapshot-clone taken before the mutation still holds the pre-mutation value
`1`, not `2`. -/
theorem write_persists_clone_isolated (c : Container) (t : Nat)
    (h : t ≠ mapTypeId) :
    resMutRetrieve (c.add_resource t 1) t = .ok (.boxed t 1)
    ∧ resRetrieve ((c.add_resource t 1).writeThrough t 2) t = .ok (.boxed t 2)
    ∧ resDeref t (.boxed t 2) = .ok 2
    ∧ resCloneRetrieve (c.add_resource t 1) t = .ok 1
    ∧ resCloneRetrieve (c.add_resource t 1) t ≠ .ok 2 := by
  have hl : ((c.add_resource t 1).resources).lookup t
      = some (BoxedAny.boxed t 1) := lookup_mapInsert_self _ _ _
  have hw : ((c.add_resource t 1).writeThrough t 2).resources
      = (t, BoxedAny.boxed t 2) :: ((c.resources.filter (fun p => p.1 != t)).map
          (fun p => if p.1 = t then (p.1, BoxedAny.boxed t 2) else p)) := by
    simp [Container.add_resource, Container.add_resource_any, mapInsert,
      Container.writeThrough]
  have hlw : (((c.add_resource t 1).writeThrough t 2).resources).lookup t
      = some (BoxedAny.boxed t 2) := by
    rw [hw]; exact lookup_cons_self _ _ _
  refine ⟨?_, ?_, ?_, ?_, ?_⟩
  · simp [resMutRetrieve, Container.get, h, Container.contains_resource_any,
      hl]
  case refine_3 => simp [resDeref, downcast]
  · simp [resRetrieve, Container.get, h, Container.contains_resource_any, hlw]
  · simp [resCloneRetrieve, Container.get, h, Container.contains_resource_any,
      hl, downcast]
  · have hcl : resCloneRetrieve (c.add_resource t 1) t = .ok 1 := by
      simp [resCloneRetrieve, Container.get, h,
        Container.contains_resource_any, hl, downcast]
    rw [hcl]
    intro hbad
    injection hbad with hv
    exact absurd hv (by decide)

/-- Witness for `write_persists_clone_isolated` at a concrete store. -/
theorem write_persists_clone_isolated_witness :
    resMutRetrieve (Container.default.add_resource 5 1) 5 = .ok (.boxed 5 1)
    ∧ resRetrieve ((Container.default.add_resource 5 1).writeThrough 5 2) 5
        = .ok (.boxed 5 2)
    ∧ resDeref 5 (.boxed 5 2) = .ok 2
    ∧ resCloneRetrieve (Container.default.add_resource 5 1) 5 = .ok 1
    ∧ resCloneRetrieve (Container.default.add_resource 5 1) 5 ≠ .ok 2 :=
  write_persists_clone_isolated Container.default 5 (by decide)

/-! ## Well-formedness: boxes are tagged with their own type identity -/

/-- The storage invariant established by the typed insertion path
(`add_resource`): the box stored under type identity `K` is a box of
exactly the type `K` identifies. -/
def wellFormed (c : Container) : Prop :=
  ∀ p ∈ c.resources, ∃ v, p.2 = BoxedAny.boxed p.1 v

theorem get_eq_of_lookup {c : Container} {u : Nat} {b : BoxedAny}
    (a : Access) (hu : u ≠ mapTypeId)
    (hl : c.resources.lookup u = some b) :
    c.get u a = (match a with
      | .immutable => .immutable b
      | .mutable => .mutable b) := by
  cases a <;> simp [Container.get, hu, Container.contains_resource_any, hl]

theorem get_eq_notFound {c : Container} {u : Nat} (a : Access)
    (hu : u ≠ mapTypeId) (hl : c.resources.lookup u = none) :
    c.get u a = .notFound := by
  cases a <;> simp [Container.get, hu, Container.contains_resource_any, hl]

/-- Claim C5: Under the invariant that every entry was inserted through the
typed path, every downcast performed at retrieval or removal succeeds: the
typed insertion preserves the invariant, every stored box downcasts to its
key, the `remove_resource` unwrap never fails, dereferencing a
`Res`/`ResMut` handle obtained from a required retrieval never fails, and
`ResClone`'s clone-out downcast never fails. -/
theorem typed_insertion_downcasts_succeed (c : Container) (hwf : wellFormed c)
    (t v : Nat) :
    wellFormed (c.add_resource t v)
    ∧ (∀ u b, c.resources.lookup u = some b → (downcast u b).isSome = true)
    ∧ (∀ u, ((c.remove_resource u).1).isOk = true)
    ∧ (∀ u b, u ≠ mapTypeId → resRetrieve c u = .ok b →
        (resDeref u b).isOk = true)
    ∧ (∀ u b, u ≠ mapTypeId → resMutRetrieve c u = .ok b →
        (resDeref u b).isOk = true)
    ∧ (∀ u, u ≠ mapTypeId → resCloneRetrieve c u ≠ .error "downcast failed") := by
  have hdown : ∀ u b, c.resources.lookup u = some b →
      (downcast u b).isSome = true := by
    intro u b hl
    obtain ⟨w, hw⟩ := hwf (u, b) (lookup_mem hl)
    simp only at hw
    subst hw
    simp [downcast]
  have hres : ∀ u b, u ≠ mapTypeId → resRetrieve c u = .ok b →
      c.resources.lookup u = some b := by
    intro u b hu hr
    cases hl : c.resources.lookup u with
    | none =>
      rw [resRetrieve, get_eq_notFound _ hu hl] at hr
      exact absurd hr (by intro hx; injection hx)
    | some b2 =>
      rw [resRetrieve, get_eq_of_lookup _ hu hl] at hr
      injection hr with hb
      rw [hb]
  have hresMut : ∀ u b, u ≠ mapTypeId → resMutRetrieve c u = .ok b →
      c.resources.lookup u = some b := by
    intro u b hu hr
    cases hl : c.resources.lookup u with
    | none =>
      rw [resMutRetrieve, get_eq_notFound _ hu hl] at hr
      exact absurd hr (by intro hx; injection hx)
    | some b2 =>
      rw [resMutRetrieve, get_eq_of_lookup _ hu hl] at hr
      injection hr with hb
      rw [hb]
  refine ⟨?_, hdown, ?_, ?_, ?_, ?_⟩
  · intro p hp
    rcases List.mem_cons.mp hp with hh | hmem
    · exact ⟨v, by rw [hh]⟩
    · exact hwf p (List.mem_of_mem_filter hmem)
  · intro u
    cases hl : c.resources.lookup u with
    | none => simp [Container.remove_resource, Container.remove_resource_any,
        hl, Except.isOk, Except.toBool]
    | some b =>
      have := hdown u b hl
      cases hd : downcast u b with
      | none => rw [hd] at this; exact absurd this (by decide)
      | some w => simp [Container.remove_resource,
          Container.remove_resource_any, hl, hd, Except.isOk, Except.toBool]
  · intro u b hu hr
    have hl := hres u b hu hr
    have := hdown u b hl
    cases hd : downcast u b with
    | none => rw [hd] at this; exact absurd this (by decide)
    | some w => simp [resDeref, hd, Except.isOk, Except.toBool]
  · intro u b hu hr
    have hl := hresMut u b hu hr
    have := hdown u b hl
    cases hd : downcast u b with
    | none => rw [hd] at this; exact absurd this (by decide)
    | some w => simp [resDeref, hd, Except.isOk, Except.toBool]
  · intro u hu
    cases hl : c.resources.lookup u with
    | none =>
      rw [resCloneRetrieve, get_eq_notFound _ hu hl]
      intro hx
      injection hx with hs
      exact absurd hs (by decide)
    | some b =>
      have := hdown u b hl
      cases hd : downcast u b with
      | none => rw [hd] at this; exact absurd this (by decide)
      | some w =>
        rw [resCloneRetrieve, get_eq_of_lookup _ hu hl]
        simp [hd]

/-- Witness for `typed_insertion_downcasts_succeed` on a concrete store. -/
theorem typed_insertion_downcasts_succeed_witness :
    wellFormed ((Container.default.add_resource 3 9).add_resource 4 8)
    ∧ (∀ u b, (Container.default.add_resource 3 9).resources.lookup u = some b
        → (downcast u b).isSome = true)
    ∧ (∀ u, (((Container.default.add_resource 3 9).remove_resource u).1).isOk
        = true)
    ∧ (∀ u b, u ≠ mapTypeId →
        resRetrieve (Container.default.add_resource 3 9) u = .ok b →
        (resDeref u b).isOk = true)
    ∧ (∀ u b, u ≠ mapTypeId →
        resMutRetrieve (Container.default.add_resource 3 9) u = .ok b →
        (resDeref u b).isOk = true)
    ∧ (∀ u, u ≠ mapTypeId →
        resCloneRetrieve (Container.default.add_resource 3 9) u
          ≠ .error "downcast failed") :=
  typed_insertion_downcasts_succeed (Container.default.add_resource 3 9)
    (by
      intro p hp
      simp [Container.default, Container.add_resource,
        Container.add_resource_any, mapInsert, List.filter] at hp
      rw [hp]
      exact ⟨9, rfl⟩) 4 8

/-- Claim C6 counterexample: For the internal map type the optional view does
not return absent although the type is not in the store: on the empty
store, `contains` is `false` yet the optional retrieval is present. -/
theorem optional_view_map_tid_cex :
    Container.default.contains_resource_any mapTypeId = false
    ∧ (optResRetrieve Container.default mapTypeId).isSome = true
    ∧ (optResMutRetrieve Container.default mapTypeId).isSome = true :=
  ⟨rfl, rfl, rfl⟩

/-- Claim C6 (amended): For every resource type other than the store's
internal map type, optional views never fail: they return `none` exactly
when the type is absent and the stored box when present (with the clone
variant yielding the cloned value under the typed-insertion invariant), and
the round trip insert → optional-retrieve → remove → optional-retrieve
yields present-with-the-inserted-value then absent. -/
theorem optional_views_absence (c : Container) (t : Nat)
    (h : t ≠ mapTypeId) (hwf : wellFormed c) (v : Nat) :
    (c.contains_resource_any t = false →
      optResRetrieve c t = none ∧ optResMutRetrieve c t = none
        ∧ optResCloneRetrieve c t = .ok none)
    ∧ (∀ b, c.resources.lookup t = some b →
        optResRetrieve c t = some b ∧ optResMutRetrieve c t = some b)
    ∧ (optResCloneRetrieve c t).isOk = true
    ∧ optResRetrieve (c.add_resource t v) t = some (.boxed t v)
    ∧ optResCloneRetrieve (c.add_resource t v) t = .ok (some v)
    ∧ optResRetrieve (((c.add_resource t v).remove_resource_any t).2) t = none
    ∧ optResCloneRetrieve (((c.add_resource t v).remove_resource_any t).2) t
        = .ok none := by
  have hli : ((c.add_resource t v).resources).lookup t
      = some (BoxedAny.boxed t v) := lookup_mapInsert_self _ _ _
  have hrm : ((c.add_resource t v).remove_resource_any t).2.resources
      = (c.add_resource t v).resources.filter (fun p => p.1 != t) := by
    simp [Container.remove_resource_any, hli]
  have hlrm : (((c.add_resource t v).remove_resource_any t).2.resources).lookup t
      = none := by rw [hrm]; exact lookup_filter_self _ _
  refine ⟨?_, ?_, ?_, ?_, ?_, ?_, ?_⟩
  · intro hc
    have hl : c.resources.lookup t = none := by
      cases hx : c.resources.lookup t with
      | none => rfl
      | some b => simp [Container.contains_resource_any, hx] at hc
    refine ⟨?_, ?_, ?_⟩
    · rw [optResRetrieve, get_eq_notFound _ h hl]
    · rw [optResMutRetrieve, get_eq_notFound _ h hl]
    · rw [optResCloneRetrieve, get_eq_notFound _ h hl]
  · intro b hl
    constructor
    · rw [optResRetrieve, get_eq_of_lookup _ h hl]
    · rw [optResMutRetrieve, get_eq_of_lookup _ h hl]
  · cases hl : c.resources.lookup t with
    | none => rw [optResCloneRetrieve, get_eq_notFound _ h hl]; rfl
    | some b =>
      obtain ⟨w, hw⟩ := hwf (t, b) (lookup_mem hl)
      simp only at hw
      subst hw
      rw [optResCloneRetrieve, get_eq_of_lookup _ h hl]
      simp [downcast, Except.isOk, Except.toBool]
  · rw [optResRetrieve,
      get_eq_of_lookup (c := c.add_resource t v) _ h hli]
  · rw [optResCloneRetrieve,
      get_eq_of_lookup (c := c.add_resource t v) _ h hli]
    simp [downcast]
  · rw [optResRetrieve, get_eq_notFound _ h hlrm]
  · rw [optResCloneRetrieve, get_eq_notFound _ h hlrm]

/-- Witness for `optional_views_absence` on a concrete store. -/
theorem optional_views_absence_witness :
    ((Container.default.add_resource 7 2).contains_resource_any 5 = false →
      optResRetrieve (Container.default.add_resource 7 2) 5 = none
        ∧ optResMutRetrieve (Container.default.add_resource 7 2) 5 = none
        ∧ optResCloneRetrieve (Container.default.add_resource 7 2) 5
            = .ok none)
    ∧ (∀ b, (Container.default.add_resource 7 2).resources.lookup 5 = some b →
        optResRetrieve (Container.default.add_resource 7 2) 5 = some b
          ∧ optResMutRetrieve (Container.default.add_resource 7 2) 5 = some b)
    ∧ (optResCloneRetrieve (Container.default.add_resource 7 2) 5).isOk = true
    ∧ optResRetrieve ((Container.default.add_resource 7 2).add_resource 5 1) 5
        = some (.boxed 5 1)
    ∧ optResCloneRetrieve
        ((Container.default.add_resource 7 2).add_resource 5 1) 5
        = .ok (some 1)
    ∧ optResRetrieve
        ((((Container.default.add_resource 7 2).add_resource 5 1).remove_resource_any 5).2)
        5 = none
    ∧ optResCloneRetrieve
        ((((Container.default.add_resource 7 2).add_resource 5 1).remove_resource_any 5).2)
        5 = .ok none :=
  optional_views_absence (Container.default.add_resource 7 2) 5 (by decide)
    (by
      intro p hp
      simp [Container.default, Container.add_resource,
        Container.add_resource_any, mapInsert, List.filter] at hp
      rw [hp]
      exact ⟨2, rfl⟩) 1

/-! ## The sort / fetch / re-sort protocol recovers declared order -/

/-- Strict ordering of cells by original position. -/
def idxLt (a b : Nat × Retrieved × Nat) : Prop := a.2.2 < b.2.2

instance : IsAntisymm (Nat × Retrieved × Nat) idxLt :=
  ⟨fun _ _ h₁ h₂ => absurd h₂ (Nat.lt_asymm h₁)⟩

/-- The cells in declared order: position `i` carries the `get` of the
`i`-th declared element. -/
def enumCells (c : Container) (req : List ReqElem) :
    List (Nat × Retrieved × Nat) :=
  req.enum.map (fun p => (p.2.tid, c.get p.2.tid p.2.access, p.1))

theorem perm_cellsOf_enumCells (c : Container) (req : List ReqElem) :
    List.Perm (cellsOf c req) (enumCells c req) := by
  have h := (List.perm_insertionSort tidLe (reqTriples req)).map
    (fun q : Nat × Access × Nat => (q.1, c.get q.1 q.2.1, q.2.2))
  simpa [cellsOf, sortedTriples, enumCells, reqTriples, List.map_map,
    Function.comp] using h

theorem enumCells_map_idx (c : Container) (req : List ReqElem) :
    (enumCells c req).map (fun q => q.2.2) = List.range req.length := by
  have h2 : ((fun q : Nat × Retrieved × Nat => q.2.2) ∘
      (fun p : Nat × ReqElem => (p.2.tid, c.get p.2.tid p.2.access, p.1)))
      = (Prod.fst : Nat × ReqElem → Nat) := rfl
  rw [enumCells, List.map_map, h2, List.enum_map_fst]

theorem pairwise_idxLt_enumCells (c : Container) (req : List ReqElem) :
    (enumCells c req).Pairwise idxLt := by
  have h : ((enumCells c req).map (fun q => q.2.2)).Pairwise (· < ·) := by
    rw [enumCells_map_idx]
    exact List.pairwise_lt_range _
  have h3 := List.pairwise_map.mp h
  exact h3

theorem backCells_eq_enumCells (c : Container) (req : List ReqElem) :
    backCells c req = enumCells c req := by
  have hperm : List.Perm (backCells c req) (enumCells c req) :=
    (List.perm_insertionSort idxLe (cellsOf c req)).trans
      (perm_cellsOf_enumCells c req)
  have hle : (backCells c req).Pairwise idxLe :=
    List.sorted_insertionSort idxLe (cellsOf c req)
  have hnodup : ((backCells c req).map (fun q => q.2.2)).Nodup := by
    refine (hperm.map (fun q => q.2.2)).nodup_iff.mpr ?_
    rw [enumCells_map_idx]
    exact List.nodup_range _
  have hne : (backCells c req).Pairwise (fun a b => a.2.2 ≠ b.2.2) := by
    have h4 := List.pairwise_map.mp hnodup
    exact h4
  have hlt : (backCells c req).Pairwise idxLt :=
    (hle.and hne).imp (fun h => Nat.lt_of_le_of_ne h.1 h.2)
  exact List.eq_of_perm_of_sorted hperm hlt (pairwise_idxLt_enumCells c req)

theorem zip_map_self {α β : Type} (h : α → β) (l : List α) :
    l.zip (l.map h) = l.map (fun e => (e, h e)) := by
  induction l with
  | nil => rfl
  | cons a l ih => simp [List.zip_cons_cons, ih]

/-- The tuple protocol — sort by type identity, fetch in sorted order,
re-sort by original position — produces exactly the per-position fetches in
declared order; hence the tuple retrieval equals the naive per-element
retrieval, unconditionally in the sequential semantics. -/
theorem tupleRetrieve_eq_naiveRetrieve (c : Container) (req : List ReqElem) :
    tupleRetrieve c req = naiveRetrieve c req := by
  have hmap : (enumCells c req).map (fun q => q.2.1)
      = req.map (fun e => c.get e.tid e.access) := by
    have h2 : ((fun q : Nat × Retrieved × Nat => q.2.1) ∘
        (fun p : Nat × ReqElem => (p.2.tid, c.get p.2.tid p.2.access, p.1)))
        = ((fun e : ReqElem => c.get e.tid e.access) ∘ Prod.snd) := rfl
    rw [enumCells, List.map_map, h2, ← List.map_map, List.enum_map_snd]
  rw [tupleRetrieve, backCells_eq_enumCells, hmap, zip_map_self]
  rfl

/-- Retrieving one declared element individually through its own
single-element `Retriever` implementation (`src/store/res.rs`). -/
def elemRetrieve (c : Container) : ReqElem → Except String ElemView
  | .res t => (resRetrieve c t).map .res
  | .resMut t => (resMutRetrieve c t).map .resMut
  | .resClone t => (resCloneRetrieve c t).map .resClone
  | .optRes t => .ok (.optRes (optResRetrieve c t))
  | .optResMut t => .ok (.optResMut (optResMutRetrieve c t))

/-- Retrieving every element individually, in declared order, stopping at
the first panic. -/
def individualRetrieve (c : Container) : List ReqElem →
    Except String (List ElemView)
  | [] => .ok []
  | e :: rest =>
    match elemRetrieve c e with
    | .ok v =>
      (match individualRetrieve c rest with
       | .ok vs => .ok (v :: vs)
       | .error s => .error s)
    | .error s => .error s

theorem get_imm_found {c : Container} {t : Nat}
    (h : (c.get t .immutable).is_found = true) :
    ∃ b, c.get t .immutable = .immutable b := by
  by_cases hm : t = mapTypeId
  · exact ⟨.boxedMap c.resources, by simp [Container.get, hm]⟩
  · cases hl : c.resources.lookup t with
    | none => rw [get_eq_notFound _ hm hl] at h; exact absurd h (by decide)
    | some b => exact ⟨b, get_eq_of_lookup _ hm hl⟩

theorem get_mut_found {c : Container} {t : Nat}
    (h : (c.get t .mutable).is_found = true) :
    ∃ b, c.get t .mutable = .mutable b := by
  by_cases hm : t = mapTypeId
  · exact ⟨.boxedMap c.resources, by simp [Container.get, hm]⟩
  · cases hl : c.resources.lookup t with
    | none => rw [get_eq_notFound _ hm hl] at h; exact absurd h (by decide)
    | some b => exact ⟨b, get_eq_of_lookup _ hm hl⟩

/-- When the element's requested type is found, converting the store's
answer with `from_retrieved` is the same as running the element's own
single-element retriever. -/
theorem fromRetrieved_eq_elemRetrieve (c : Container) (e : ReqElem)
    (h : (c.get e.tid e.access).is_found = true) :
    fromRetrieved e (c.get e.tid e.access) = elemRetrieve c e := by
  cases e with
  | res t =>
    obtain ⟨b, hb⟩ := get_imm_found (by simpa [ReqElem.tid, ReqElem.access] using h)
    simp [ReqElem.tid, ReqElem.access, hb, fromRetrieved, elemRetrieve,
      resRetrieve, Except.map]
  | resMut t =>
    obtain ⟨b, hb⟩ := get_mut_found (by simpa [ReqElem.tid, ReqElem.access] using h)
    simp [ReqElem.tid, ReqElem.access, hb, fromRetrieved, elemRetrieve,
      resMutRetrieve, Except.map]
  | resClone t =>
    obtain ⟨b, hb⟩ := get_imm_found (by simpa [ReqElem.tid, ReqElem.access] using h)
    simp only [ReqElem.tid, ReqElem.access] at hb ⊢
    rw [hb]
    cases hd : downcast t b with
    | none => simp [fromRetrieved, elemRetrieve, resCloneRetrieve, hb, hd,
        Except.map]
    | some w => simp [fromRetrieved, elemRetrieve, resCloneRetrieve, hb, hd,
        Except.map]
  | optRes t =>
    obtain ⟨b, hb⟩ := get_imm_found (by simpa [ReqElem.tid, ReqElem.access] using h)
    simp [ReqElem.tid, ReqElem.access, hb, fromRetrieved, elemRetrieve,
      optResRetrieve]
  | optResMut t =>
    obtain ⟨b, hb⟩ := get_mut_found (by simpa [ReqElem.tid, ReqElem.access] using h)
    simp [ReqElem.tid, ReqElem.access, hb, fromRetrieved, elemRetrieve,
      optResMutRetrieve]

theorem naiveRetrieve_eq_individualRetrieve (c : Container)
    (req : List ReqElem)
    (hpres : ∀ e ∈ req, (c.get e.tid e.access).is_found = true) :
    naiveRetrieve c req = individualRetrieve c req := by
  induction req with
  | nil => rfl
  | cons e rest ih =>
    have he := hpres e (List.mem_cons_self e rest)
    have hrest : ∀ x ∈ rest, (c.get x.tid x.access).is_found = true :=
      fun x hx => hpres x (List.mem_cons_of_mem e hx)
    rw [naiveRetrieve, List.map_cons, collectViews,
      fromRetrieved_eq_elemRetrieve c e he, individualRetrieve]
    have ih2 := ih hrest
    rw [naiveRetrieve] at ih2
    rw [ih2]

/-- Claim C2: For a well-formed tuple request of distinct type identities all
present in the store, the tuple retrieval — sort by type identity, fetch in
sorted order, re-sort back by original position — returns, in declared
position order, exactly the typed views obtained by retrieving each element
individually in declared order. -/
theorem tuple_retrieve_refines_individual (c : Container) (req : List ReqElem)
    (hnd : (req.map ReqElem.tid).Nodup)
    (hpres : ∀ e ∈ req, (c.get e.tid e.access).is_found = true) :
    tupleRetrieve c req = individualRetrieve c req := by
  rw [tupleRetrieve_eq_naiveRetrieve]
  exact naiveRetrieve_eq_individualRetrieve c req hpres

/-- Witness for `tuple_retrieve_refines_individual` on a concrete store and
request. -/
theorem tuple_retrieve_refines_individual_witness :
    tupleRetrieve ((Container.default.add_resource 5 1).add_resource 3 2)
      [ReqElem.res 5, ReqElem.resMut 3]
    = individualRetrieve ((Container.default.add_resource 5 1).add_resource 3 2)
      [ReqElem.res 5, ReqElem.resMut 3] :=
  tuple_retrieve_refines_individual _ _ (by decide) (by decide)

/-! ## Required views and absent resources -/

theorem collectViews_mem_ok {l : List (ReqElem × Retrieved)}
    (h : (collectViews l).isOk = true) :
    ∀ p ∈ l, (fromRetrieved p.1 p.2).isOk = true := by
  induction l with
  | nil => intro p hp; cases hp
  | cons q rest ih =>
    intro p hp
    rcases q with ⟨e, r⟩
    rw [collectViews] at h
    cases hfr : fromRetrieved e r with
    | error s =>
      rw [hfr] at h
      exact absurd h (by simp [Except.isOk, Except.toBool])
    | ok v =>
      rw [hfr] at h
      rcases List.mem_cons.mp hp with hph | hmem
      · rw [hph]; simp [hfr, Except.isOk, Except.toBool]
      · cases hcv : collectViews rest with
        | error s =>
          rw [hcv] at h
          simp [Except.isOk, Except.toBool] at h
        | ok vs => exact ih (by rw [hcv]; rfl) p hmem

/-- Claim C3 counterexample: For `T` the store's internal map type — never
inserted into the (empty) store, so `contains` is `false` — the required
views do **not** fail: both `Res` and `ResMut` retrieval succeed, alone and
as a tuple element. -/
theorem required_view_map_tid_cex :
    Container.default.contains_resource_any mapTypeId = false
    ∧ (resRetrieve Container.default mapTypeId).isOk = true
    ∧ (resMutRetrieve Container.default mapTypeId).isOk = true
    ∧ (tupleRetrieve Container.default [ReqElem.res mapTypeId]).isOk = true :=
  ⟨rfl, rfl, rfl, rfl⟩

/-- Claim C3 (amended): For every type `T` never inserted into the store whose
type identity is not that of the store's internal map type, retrieving `T`
through a required view fails loudly — `Res` and `ResMut` alone return the
"Resource not found" panic — and a tuple request containing such a required
element never returns a result as a success. -/
theorem required_view_absent_fails (c : Container) (t : Nat)
    (ht : t ≠ mapTypeId) (habs : c.contains_resource_any t = false) :
    resRetrieve c t = .error "Resource not found"
    ∧ resMutRetrieve c t = .error "Resource not found"
    ∧ resCloneRetrieve c t = .error "Resource not found"
    ∧ (∀ req, ReqElem.res t ∈ req ∨ ReqElem.resMut t ∈ req →
        (tupleRetrieve c req).isOk = false) := by
  have hl : c.resources.lookup t = none := by
    cases hx : c.resources.lookup t with
    | none => rfl
    | some b => simp [Container.contains_resource_any, hx] at habs
  refine ⟨?_, ?_, ?_, ?_⟩
  · rw [resRetrieve, get_eq_notFound _ ht hl]
  · rw [resMutRetrieve, get_eq_notFound _ ht hl]
  · rw [resCloneRetrieve, get_eq_notFound _ ht hl]
  · intro req hmem
    cases hok : (tupleRetrieve c req).isOk with
    | false => rfl
    | true =>
      exfalso
      rw [tupleRetrieve_eq_naiveRetrieve] at hok
      have hall := collectViews_mem_ok hok
      rcases hmem with hres | hresMut
      · have hp : (ReqElem.res t, c.get (ReqElem.res t).tid (ReqElem.res t).access)
            ∈ req.map (fun e => (e, c.get e.tid e.access)) :=
          List.mem_map_of_mem _ hres
        have := hall _ hp
        rw [show c.get (ReqElem.res t).tid (ReqElem.res t).access = .notFound from
          get_eq_notFound _ ht hl] at this
        simp [fromRetrieved, Except.isOk, Except.toBool] at this
      · have hp : (ReqElem.resMut t, c.get (ReqElem.resMut t).tid (ReqElem.resMut t).access)
            ∈ req.map (fun e => (e, c.get e.tid e.access)) :=
          List.mem_map_of_mem _ hresMut
        have := hall _ hp
        rw [show c.get (ReqElem.resMut t).tid (ReqElem.resMut t).access = .notFound from
          get_eq_notFound _ ht hl] at this
        simp [fromRetrieved, Except.isOk, Except.toBool] at this

/-- Witness for `required_view_absent_fails` on a concrete store. -/
theorem required_view_absent_fails_witness :
    resRetrieve (Container.default.add_resource 7 1) 5
      = .error "Resource not found"
    ∧ resMutRetrieve (Container.default.add_resource 7 1) 5
      = .error "Resource not found"
    ∧ resCloneRetrieve (Container.default.add_resource 7 1) 5
      = .error "Resource not found"
    ∧ (∀ req, ReqElem.res 5 ∈ req ∨ ReqElem.resMut 5 ∈ req →
        (tupleRetrieve (Container.default.add_resource 7 1) req).isOk
          = false) :=
  required_view_absent_fails (Container.default.add_resource 7 1) 5
    (by decide) rfl

/-! ## Lock-order deadlock freedom -/

/-- Two accesses to the same lock conflict unless both are shared
(`parking_lot::RwLock` semantics: readers coexist, a writer excludes
everyone). -/
def conflict (a b : Access) : Prop := a = .mutable ∨ b = .mutable

/-- Request `ra`, having acquired the first `i` locks of its acquisition
sequence, is blocked on its `i`-th acquisition by request `rb`, which is
waiting at position `j` of its own sequence (and therefore holds its first
`j` acquisitions): some lock `rb` already holds is the same type identity
`ra` now wants, with conflicting access. -/
def blockedBy (ra rb : List ReqElem) (i j : Nat) : Prop :=
  ∃ la, (acqList ra).get? i = some la ∧
    ∃ k, k < j ∧ ∃ lb, (acqList rb).get? k = some lb ∧
      lb.1 = la.1 ∧ conflict la.2 lb.2

theorem acq_pairwise_lt {req : List ReqElem}
    (hnd : (req.map ReqElem.tid).Nodup) :
    (acqList req).Pairwise (fun a b => a.1 < b.1) := by
  have hle : (sortedTriples req).Pairwise tidLe :=
    List.sorted_insertionSort _ _
  have hle2 : (acqList req).Pairwise (fun a b => a.1 ≤ b.1) := by
    rw [acqList]
    exact hle.map _ (fun a b h => h)
  have hmapfst : (acqList req).map Prod.fst
      = (sortedTriples req).map (fun q => q.1) := by
    rw [acqList, List.map_map]
    exact rfl
  have h2 : (reqTriples req).map (fun q : Nat × Access × Nat => q.1)
      = req.map ReqElem.tid := by
    have h3 : ((fun q : Nat × Access × Nat => q.1) ∘
        (fun p : Nat × ReqElem => (p.2.tid, p.2.access, p.1)))
        = (ReqElem.tid ∘ Prod.snd) := rfl
    rw [reqTriples, List.map_map, h3, ← List.map_map, List.enum_map_snd]
  have hperm : List.Perm ((acqList req).map Prod.fst) (req.map ReqElem.tid) := by
    rw [hmapfst, ← h2]
    exact (List.perm_insertionSort tidLe (reqTriples req)).map
      (fun q : Nat × Access × Nat => q.1)
  have hnodup2 : ((acqList req).map Prod.fst).Nodup := hperm.nodup_iff.mpr hnd
  have hne := List.pairwise_map.mp hnodup2
  exact (hle2.and hne).imp (fun h => Nat.lt_of_le_of_ne h.1 h.2)

theorem acq_tid_lt {req : List ReqElem}
    (hnd : (req.map ReqElem.tid).Nodup) {p q : Nat} {x y : Nat × Access}
    (hpq : p < q) (hx : (acqList req).get? p = some x)
    (hy : (acqList req).get? q = some y) : x.1 < y.1 := by
  obtain ⟨hp, hxe⟩ := List.get?_eq_some.mp hx
  obtain ⟨hq, hye⟩ := List.get?_eq_some.mp hy
  have hpair := acq_pairwise_lt hnd
  have hlt := List.pairwise_iff_get.mp hpair ⟨p, hp⟩ ⟨q, hq⟩ hpq
  rw [hxe, hye] at hlt
  exact hlt

/-- Claim C1: Because every tuple retrieval acquires its per-resource locks in
the single process-wide sorted order of type identities, no cycle of
waiting can form between two concurrent requests over (possibly
overlapping, differently ordered) sets of distinct type identities: there
is no state in which each request holds a prefix of its sorted acquisition
sequence and each is blocked by a lock the other holds, so both requests
can always complete. -/
theorem no_cross_wait_cycle (ra rb : List ReqElem) (i j : Nat)
    (ha : (ra.map ReqElem.tid).Nodup) (hb : (rb.map ReqElem.tid).Nodup) :
    ¬ (blockedBy ra rb i j ∧ blockedBy rb ra j i) := by
  rintro ⟨⟨la, hla, k, hk, lb, hlb, htid1, hc1⟩,
    ⟨lb2, hlb2, k2, hk2, la2, hla2, htid2, hc2⟩⟩
  have h1 : lb.1 < lb2.1 := acq_tid_lt hb hk hlb hlb2
  have h2 : la2.1 < la.1 := acq_tid_lt ha hk2 hla2 hla
  have hcontr : la.1 < la.1 := by
    calc la.1 = lb.1 := htid1.symm
      _ < lb2.1 := h1
      _ = la2.1 := htid2.symm
      _ < la.1 := h2
  exact absurd hcontr (lt_irrefl _)

/-- Witness for `no_cross_wait_cycle`: two requests for the same two types
declared in opposite orders. -/
theorem no_cross_wait_cycle_witness :
    ¬ (blockedBy [ReqElem.res 1, ReqElem.resMut 2]
          [ReqElem.resMut 2, ReqElem.res 1] 1 1
        ∧ blockedBy [ReqElem.resMut 2, ReqElem.res 1]
          [ReqElem.res 1, ReqElem.resMut 2] 1 1) :=
  no_cross_wait_cycle [ReqElem.res 1, ReqElem.resMut 2]
    [ReqElem.resMut 2, ReqElem.res 1] 1 1 (by decide) (by decide)

/-! ## Conflicting duplicate requests are not rejected -/

/-- The (type identity, access mode) pairs of a request in declared order. -/
def reqAccessPairs (req : List ReqElem) : List (Nat × Access) :=
  req.map (fun e => (e.tid, e.access))

/-- The list contains two elements (at distinct positions) naming the same
type identity with conflicting access modes. -/
def hasConflictingDup (l : List (Nat × Access)) : Prop :=
  ∃ a b : Nat × Access, a.1 = b.1 ∧ conflict a.2 b.2 ∧ List.Subperm [a, b] l

theorem acqList_perm (req : List ReqElem) :
    List.Perm (acqList req) (reqAccessPairs req) := by
  have h2 : (reqTriples req).map (fun q : Nat × Access × Nat => (q.1, q.2.1))
      = reqAccessPairs req := by
    have h3 : ((fun q : Nat × Access × Nat => (q.1, q.2.1)) ∘
        (fun p : Nat × ReqElem => (p.2.tid, p.2.access, p.1)))
        = ((fun e : ReqElem => (e.tid, e.access)) ∘ Prod.snd) := rfl
    rw [reqTriples, List.map_map, h3, ← List.map_map, List.enum_map_snd,
      reqAccessPairs]
  rw [acqList, ← h2]
  exact (List.perm_insertionSort tidLe (reqTriples req)).map
    (fun q : Nat × Access × Nat => (q.1, q.2.1))

/-- Claim C4 counterexample: A request naming type identity `5` once shared
and once exclusive is not detected or rejected: the retrieval's lock
acquisition sequence is the full two-element sequence — both acquisitions
are attempted, adjacent and conflicting, so the second blocks on the first
(self-deadlock) instead of the request being rejected before any lock
acquisition. -/
theorem conflicting_dup_not_rejected_cex :
    hasConflictingDup (reqAccessPairs [ReqElem.res 5, ReqElem.resMut 5])
    ∧ acqList [ReqElem.res 5, ReqElem.resMut 5]
        = [(5, .immutable), (5, .mutable)] := by
  refine ⟨⟨(5, .immutable), (5, .mutable), rfl, Or.inr rfl, ?_⟩, rfl⟩
  rw [show reqAccessPairs [ReqElem.res 5, ReqElem.resMut 5]
      = [(5, Access.immutable), (5, Access.mutable)] from rfl]

/-- Claim C4 (amended): A request naming the same type identity twice with
conflicting access modes is **not** detected or rejected: the tuple
retrieval attempts a lock acquisition for every element of the request (the
acquisition sequence has the request's full length), and the acquisition
sequence itself still contains the conflicting duplicate — the same type
identity is locked twice with conflicting modes, which self-deadlocks at
the second acquisition. -/
theorem conflicting_dup_self_deadlock (req : List ReqElem)
    (h : hasConflictingDup (reqAccessPairs req)) :
    hasConflictingDup (acqList req) ∧ (acqList req).length = req.length := by
  constructor
  · obtain ⟨a, b, h1, h2, h3⟩ := h
    exact ⟨a, b, h1, h2, h3.trans (acqList_perm req).symm.subperm⟩
  · rw [(acqList_perm req).length_eq, reqAccessPairs, List.length_map]

/-- Witness for `conflicting_dup_self_deadlock` at a concrete request. -/
theorem conflicting_dup_self_deadlock_witness :
    hasConflictingDup (acqList [ReqElem.res 5, ReqElem.resMut 5])
    ∧ (acqList [ReqElem.res 5, ReqElem.resMut 5]).length
        = [ReqElem.res 5, ReqElem.resMut 5].length :=
  conflicting_dup_self_deadlock [ReqElem.res 5, ReqElem.resMut 5]
    ⟨(5, .immutable), (5, .mutable), rfl, Or.inr rfl, by
      rw [show reqAccessPairs [ReqElem.res 5, ReqElem.resMut 5]
          = [(5, Access.immutable), (5, Access.mutable)] from rfl]⟩

end Emark
